import Mathlib

/-!
Shallow embedding of `src/transformers/models/prompt_depth_anything/
modular_prompt_depth_anything.py` (the PromptDepthAnything depth-estimation
model).  Tensors are modelled as shape data together with a total
rational-valued element function; machine floats are embedded as exact
rationals.  Learned convolution kernels and the bilinear resampler of the
external tensor runtime are kept abstract: they are parameters computing the
element values, while the shape semantics of each operation is concrete and
matches the tensor runtime.  Parts of the program that live in the inherited
DepthAnything classes (which are not part of this repository snapshot) are
modelled from the specification and marked as such.
-/

/-- Element type of all tensors: exact rationals stand in for floats. -/
abbrev Val : Type := ℚ

/-- A 4-dimensional tensor `[batch, channels, height, width]`.  The data
function is total; only indices below the bounds are meaningful. -/
structure Tensor where
  batch : Nat
  channels : Nat
  height : Nat
  width : Nat
  data : Nat → Nat → Nat → Nat → Val

/-- A 3-dimensional tensor `[batch, height, width]`, the result of
`predicted_depth.squeeze(dim=1)`. -/
structure Tensor3 where
  batch : Nat
  height : Nat
  width : Nat
  data : Nat → Nat → Nat → Val

/-- Spatial size `shape[2:]` of a 4-dimensional tensor. -/
def spatialSize (t : Tensor) : Nat × Nat := (t.height, t.width)

/-- Elementwise addition; the (broadcast) result shape is the left operand
shape, as in the source where both operands always have equal shapes. -/
def Tensor.add (x y : Tensor) : Tensor :=
  { x with data := fun b c i j => x.data b c i j + y.data b c i j }

/-- `nn.ReLU`: elementwise maximum with zero. -/
def relu (t : Tensor) : Tensor :=
  { t with data := fun b c i j => max 0 (t.data b c i j) }

/-- Abstract learned kernel of a convolution: given the input tensor it
produces the output element function.  The kernel weights and biases of
the external tensor runtime are folded into this function. -/
abbrev ConvW : Type := Tensor → Nat → Nat → Nat → Nat → Val

/-- `nn.Conv2d` with square kernel `k`, stride `s` and padding `p`:
concrete shape semantics of the tensor runtime
(`out = (in + 2p - k) / s + 1`, floor division), abstract element values. -/
def conv2d (outChannels k s p : Nat) (w : ConvW) (t : Tensor) : Tensor :=
  { batch := t.batch
    channels := outChannels
    height := (t.height + 2 * p - k) / s + 1
    width := (t.width + 2 * p - k) / s + 1
    data := w t }

/-- `nn.ConvTranspose2d` with square kernel `k`, stride `s`, padding `p`:
shape semantics `out = (in - 1) * s + k - 2p`, abstract element values. -/
def convTranspose2d (outChannels k s p : Nat) (w : ConvW) (t : Tensor) : Tensor :=
  { batch := t.batch
    channels := outChannels
    height := (t.height - 1) * s + k - 2 * p
    width := (t.width - 1) * s + k - 2 * p
    data := w t }

/-- Abstract bilinear resampler of `nn.functional.interpolate`
(arguments: align-corners flag, input, target height, target width, and the
output index); the resampled values belong to the external tensor runtime. -/
abbrev Resample : Type := Bool → Tensor → Nat → Nat → Nat → Nat → Nat → Nat → Val

/-- `nn.functional.interpolate` in `bilinear` mode: an explicit `size`
target, or the default `scale_factor=2` when `size` is absent. -/
def interpolate (bilin : Resample) (t : Tensor) (size : Option (Nat × Nat))
    (alignCorners : Bool) : Tensor :=
  match size with
  | some (h, w) =>
      { batch := t.batch, channels := t.channels, height := h, width := w
        data := fun b c i j => bilin alignCorners t h w b c i j }
  | none =>
      { batch := t.batch, channels := t.channels
        height := 2 * t.height, width := 2 * t.width
        data := fun b c i j => bilin alignCorners t (2 * t.height) (2 * t.width) b c i j }

/-- Minimum of a list of values (`torch.min` along a dimension); the empty
case is never reached on real tensors. -/
def listMin : List Val → Val
  | [] => 0
  | x :: xs => xs.foldl min x

/-- Maximum of a list of values (`torch.max` along a dimension). -/
def listMax : List Val → Val
  | [] => 0
  | x :: xs => xs.foldl max x

/-- The values of batch element `b` after `prompt_depth.reshape(B, -1)`:
all elements of the channel/height/width block of that batch element. -/
def batchValues (t : Tensor) (b : Nat) : List Val :=
  (List.range t.channels).flatMap fun c =>
    (List.range t.height).flatMap fun i =>
      (List.range t.width).map fun j => t.data b c i j

/-- `depth_min` of one batch element:
`torch.min(prompt_depth.reshape(B, -1), dim=1).values`. -/
def batchMin (t : Tensor) (b : Nat) : Val := listMin (batchValues t b)

/-- `depth_max` of one batch element before the degenerate-range
correction: `torch.max(prompt_depth.reshape(B, -1), dim=1).values`. -/
def batchMax (t : Tensor) (b : Nat) : Val := listMax (batchValues t b)

/-- The epsilon `1e-6` used by the degenerate-range correction, exact. -/
def depthEps : Val := 1 / 1000000

/-- `depth_max` after the correction
`depth_max[invalid_mask] = depth_min[invalid_mask] + 1e-6` applied where
`(depth_max - depth_min) <= 0`. -/
def correctedBatchMax (t : Tensor) (b : Nat) : Val :=
  if batchMax t b - batchMin t b ≤ 0 then batchMin t b + depthEps else batchMax t b

/-- Scalar normalization `(x - depth_min) / (depth_max - depth_min)`. -/
def normalizeVal (dmin dmax x : Val) : Val := (x - dmin) / (dmax - dmin)

/-- Scalar denormalization `y * (depth_max - depth_min) + depth_min`. -/
def denormalizeVal (dmin dmax y : Val) : Val := y * (dmax - dmin) + dmin

/-- `prompt_depth = (prompt_depth - depth_min) / (depth_max - depth_min)`
with the per-batch ranges broadcast over `(B, 1, 1, 1)`. -/
def normalizeTensor (t : Tensor) (dmin dmax : Nat → Val) : Tensor :=
  { t with data := fun b c i j => normalizeVal (dmin b) (dmax b) (t.data b c i j) }

/-- `predicted_depth = predicted_depth * (depth_max - depth_min) + depth_min`
with the per-batch ranges broadcast over `(B, 1, 1)`. -/
def denormTensor (t : Tensor3) (dmin dmax : Nat → Val) : Tensor3 :=
  { t with data := fun b i j => denormalizeVal (dmin b) (dmax b) (t.data b i j) }

/-- Python list indexing with possibly negative index (`hidden_states[idx]`):
a negative index counts from the end; out of range is an error (`none`). -/
def pyGet (l : List Tensor) (i : Int) : Option Tensor :=
  let j : Int := if i < 0 then (l.length : Int) + i else i
  if j < 0 then none else l.get? j.toNat

/-- The architecture configuration fields used by the model.  Modelled from
the spec: `PromptDepthAnythingConfig` inherits `DepthAnythingConfig`, which
is not part of this repository snapshot; the spec lists the static
parameters (neck hidden sizes, fusion hidden size, reassemble hidden size,
patch size, per-level resize factors, maximum depth bound and output
toggles). -/
structure PromptDepthAnythingConfig where
  patchSize : Nat
  fusionHiddenSize : Nat
  neckHiddenSizes : List Nat
  reassembleFactors : List ℚ
  reassembleHiddenSize : Nat
  headInIndex : Int
  headConv1Out : Nat
  headConv2Out : Nat
  maxDepth : Val
  useReturnDict : Bool
  outputHiddenStates : Bool
  outputAttentions : Bool

/-- Weights of `PromptDepthAnythingLayer` (three 3-by-3 convolutions). -/
structure PromptLayerW where
  conv1 : ConvW
  conv2 : ConvW
  conv3 : ConvW

/-- `PromptDepthAnythingLayer.forward`: convolution1 (1 to fusion hidden
channels) / ReLU / convolution2 / ReLU / convolution3, all 3-by-3 with
stride 1 and padding 1. -/
def promptLayerForward (cfg : PromptDepthAnythingConfig) (w : PromptLayerW)
    (prompt_depth : Tensor) : Tensor :=
  let hidden_state := conv2d cfg.fusionHiddenSize 3 1 1 w.conv1 prompt_depth
  let hidden_state := relu hidden_state
  let hidden_state := conv2d cfg.fusionHiddenSize 3 1 1 w.conv2 hidden_state
  let hidden_state := relu hidden_state
  let hidden_state := conv2d cfg.fusionHiddenSize 3 1 1 w.conv3 hidden_state
  hidden_state

/-- Modelled from the spec: `DepthAnythingPreActResidualLayer` (the
`residual_layer1`/`residual_layer2` submodules inherited from
`DepthAnythingFeatureFusionLayer`, whose code is not in this repository
snapshot) is a learned-residual transform: two 3-by-3 same-padding
convolutions with rectified-linear activations, added back to the input. -/
def preActResidual (cfg : PromptDepthAnythingConfig) (w1 w2 : ConvW) (t : Tensor) : Tensor :=
  t.add (conv2d cfg.fusionHiddenSize 3 1 1 w2
    (relu (conv2d cfg.fusionHiddenSize 3 1 1 w1 (relu t))))

/-- Weights of one `PromptDepthAnythingFeatureFusionLayer`:
the two residual units, the final 1-by-1 projection (modelled from the
spec, inherited from `DepthAnythingFeatureFusionLayer`), and the prompt
depth layer added by this model. -/
structure FusionLayerW where
  res1a : ConvW
  res1b : ConvW
  res2a : ConvW
  res2b : ConvW
  projectionW : ConvW
  promptW : PromptLayerW

/-- `PromptDepthAnythingFeatureFusionLayer.forward`: optional residual add
(with a bilinear shape fix-up when the shapes differ, align corners false),
second residual unit, optional prompt-depth injection (bilinear resize of
the prompt to the current spatial size, `PromptDepthAnythingLayer`,
elementwise add), resize to `size` (or default scale factor 2) with align
corners true, and the final 1-by-1 projection. -/
def fusionLayerForward (bilin : Resample) (cfg : PromptDepthAnythingConfig)
    (w : FusionLayerW) (hidden_state : Tensor) (residual : Option Tensor)
    (size : Option (Nat × Nat)) (prompt_depth : Option Tensor) : Tensor :=
  let hidden_state :=
    match residual with
    | none => hidden_state
    | some residual =>
        let residual :=
          if (hidden_state.batch, hidden_state.channels, hidden_state.height, hidden_state.width)
              ≠ (residual.batch, residual.channels, residual.height, residual.width) then
            interpolate bilin residual (some (hidden_state.height, hidden_state.width)) false
          else residual
        hidden_state.add (preActResidual cfg w.res1a w.res1b residual)
  let hidden_state := preActResidual cfg w.res2a w.res2b hidden_state
  let hidden_state :=
    match prompt_depth with
    | none => hidden_state
    | some prompt_depth =>
        let prompt_depth :=
          interpolate bilin prompt_depth
            (some (hidden_state.height, hidden_state.width)) false
        let res := promptLayerForward cfg w.promptW prompt_depth
        hidden_state.add res
  let hidden_state := interpolate bilin hidden_state size true
  conv2d cfg.fusionHiddenSize 1 1 0 w.projectionW hidden_state

/-- The loop body of `PromptDepthAnythingFeatureFusionStage.forward` over
the reversed hidden states zipped with the layers.  At each position the
loop recomputes `size` as the spatial shape of the next reversed element
(or `None` at the last position); the first iteration uses only the current
hidden state, later iterations fuse the accumulator with it. -/
def fusionStageGo (bilin : Resample) (cfg : PromptDepthAnythingConfig)
    (prompt_depth : Option Tensor) :
    List Tensor → List FusionLayerW → Option Tensor → List Tensor
  | [], _, _ => []
  | _ :: _, [], _ => []
  | hidden_state :: rest, layer :: layers, fused_hidden_state =>
      let size : Option (Nat × Nat) :=
        match rest with
        | [] => none
        | nxt :: _ => some (nxt.height, nxt.width)
      let fused :=
        match fused_hidden_state with
        | none => fusionLayerForward bilin cfg layer hidden_state none size prompt_depth
        | some f => fusionLayerForward bilin cfg layer f (some hidden_state) size prompt_depth
      fused :: fusionStageGo bilin cfg prompt_depth rest layers (some fused)

/-- `PromptDepthAnythingFeatureFusionStage.forward`: reverse the input list
and run the fusion loop.  The `size` parameter is part of the signature but
the loop reassigns it before any use. -/
def fusionStageForward (bilin : Resample) (cfg : PromptDepthAnythingConfig)
    (layers : List FusionLayerW) (hidden_states : List Tensor)
    (size : Option (Nat × Nat)) (prompt_depth : Option Tensor) : List Tensor :=
  fusionStageGo bilin cfg prompt_depth hidden_states.reverse layers none

/-- Weights of the depth-estimation head.  Modelled from the spec: the
convolutions are inherited from `DepthAnythingDepthEstimationHead` (not in
this repository snapshot); `act2` is the sigmoid-like bounded activation
applied before the `max_depth` scaling. -/
structure HeadW where
  conv1W : ConvW
  conv2W : ConvW
  conv3W : ConvW
  act2 : Val → Val

/-- Target pixel resolution of the head interpolation:
`(patch_height * patch_size, patch_width * patch_size)`. -/
def headTarget (cfg : PromptDepthAnythingConfig) (patch_height patch_width : Nat) :
    Nat × Nat :=
  (patch_height * cfg.patchSize, patch_width * cfg.patchSize)

/-- Elementwise `activation2(x) * max_depth`. -/
def scaleAct (f : Val → Val) (m : Val) (t : Tensor) : Tensor :=
  { t with data := fun b c i j => f (t.data b c i j) * m }

/-- `predicted_depth.squeeze(dim=1)` on a single-channel tensor. -/
def squeezeChannel (t : Tensor) : Tensor3 :=
  { batch := t.batch, height := t.height, width := t.width
    data := fun b i j => t.data b 0 i j }

/-- Errors surfaced by the embedded model: the explicit raises of the
source plus uncaught runtime failures of the tensor library. -/
inductive ModelError where
  | notImplemented
  | typeMismatch
  | structuralMismatch
  | runtimeError
  deriving DecidableEq, Repr

/-- `PromptDepthAnythingDepthEstimationHead.forward`: select the input by
`head_in_index`, 3-by-3 convolution, bilinear interpolation to the patch
resolution times patch size (align corners true), 3-by-3 convolution, ReLU,
1-by-1 convolution to one channel, bounded activation times `max_depth`,
and squeeze of the channel dimension. -/
def headForward (bilin : Resample) (cfg : PromptDepthAnythingConfig) (w : HeadW)
    (hidden_states : List Tensor) (patch_height patch_width : Nat) :
    Except ModelError Tensor3 :=
  match pyGet hidden_states cfg.headInIndex with
  | none => .error .runtimeError
  | some hidden_state =>
      let predicted_depth := conv2d cfg.headConv1Out 3 1 1 w.conv1W hidden_state
      let target := headTarget cfg patch_height patch_width
      let predicted_depth := interpolate bilin predicted_depth (some target) true
      let predicted_depth := conv2d cfg.headConv2Out 3 1 1 w.conv2W predicted_depth
      let predicted_depth := relu predicted_depth
      let predicted_depth := conv2d 1 1 1 0 w.conv3W predicted_depth
      let predicted_depth := scaleAct w.act2 cfg.maxDepth predicted_depth
      .ok (squeezeChannel predicted_depth)

/-- Weights of one reassemble layer: the 1-by-1 channel projection and the
resize convolution (transposed or strided). -/
structure ReassembleLayerW where
  projection : ConvW
  resizeW : ConvW

/-- `torch_int` applied to `1 / factor`: Python `int()` truncation, which
on the nonnegative ratios used here is the floor. -/
def strideOfFactor (factor : ℚ) : Nat := (⌊1 / factor⌋).toNat

/-- The `resize` submodule chosen by `PromptDepthAnythingReassembleLayer.__init__`:
a transposed convolution with kernel and stride `factor` and zero padding
when `factor > 1`, the identity when `factor == 1`, and a 3-by-3
convolution with stride `torch_int(1 / factor)` and padding 1 when
`factor < 1`. -/
def reassembleResize (channels : Nat) (factor : ℚ) (w : ConvW) (t : Tensor) : Tensor :=
  if 1 < factor then
    convTranspose2d channels factor.num.toNat factor.num.toNat 0 w t
  else if factor = 1 then
    t
  else
    conv2d channels 3 (strideOfFactor factor) 1 w t

/-- `PromptDepthAnythingReassembleLayer` applied to a feature map.  The
1-by-1 projection to `channels` output channels comes from `__init__` in the
source; the ordering is modelled from the spec: the inherited
`DepthAnythingReassembleLayer.forward` (not in this repository snapshot)
applies the projection before the resize. -/
def reassembleLayerForward (channels : Nat) (factor : ℚ) (w : ReassembleLayerW)
    (t : Tensor) : Tensor :=
  reassembleResize channels factor w.resizeW (conv2d channels 1 1 0 w.projection t)

/-- Modelled from the spec: the inherited `DepthAnythingReassembleStage`
(not in this repository snapshot) first reshapes each backbone token map to
a spatial map of the patch-grid resolution with `reassemble_hidden_size`
channels; the element layout of that reshape belongs to the external
runtime. -/
def tokensToSpatial (cfg : PromptDepthAnythingConfig) (ph pw : Nat) (t : Tensor) : Tensor :=
  { batch := t.batch, channels := cfg.reassembleHiddenSize, height := ph, width := pw
    data := fun b c i j => t.data b (i * pw + j) c 0 }

/-- Modelled from the spec: `DepthAnythingReassembleStage.forward` (not in
this repository snapshot) applies one reassemble layer per backbone feature
level, with the per-level `(channels, factor)` pairs zipped from the
configured neck hidden sizes and reassemble factors, in input order. -/
def reassembleStage (cfg : PromptDepthAnythingConfig) (ws : List ReassembleLayerW)
    (hidden_states : List Tensor) (patch_height patch_width : Nat) : List Tensor :=
  (hidden_states.zip ((cfg.neckHiddenSizes.zip cfg.reassembleFactors).zip ws)).map
    (fun p => reassembleLayerForward p.2.1.1 p.2.1.2 p.2.2
      (tokensToSpatial cfg patch_height patch_width p.1))

/-- The dynamically-typed `hidden_states` argument of
`PromptDepthAnythingNeck.forward`: either an ordered sequence (tuple or
list) of tensors, or a value of any other Python type. -/
inductive NeckArg where
  | seq (hidden_states : List Tensor)
  | notASequence

/-- Weights of the neck: the reassemble layers, the per-level readout
convolutions and the fusion layers. -/
structure NeckW where
  reassembleW : List ReassembleLayerW
  convsW : List ConvW
  fusionW : List FusionLayerW

/-- `PromptDepthAnythingNeck.forward`: raise a type error unless the input
is a tuple or list, raise a value error unless its length equals the number
of configured neck hidden sizes, then reassemble, apply the per-level
readout convolutions (modelled from the spec: 3-by-3 same-padding
convolutions into the fusion hidden width, inherited from
`DepthAnythingNeck.__init__` which is not in this repository snapshot), and
run the fusion stage with the prompt depth. -/
def neckForward (bilin : Resample) (cfg : PromptDepthAnythingConfig) (w : NeckW)
    (hidden_states : NeckArg) (patch_height patch_width : Nat)
    (prompt_depth : Option Tensor) : Except ModelError (List Tensor) :=
  match hidden_states with
  | .notASequence => .error .typeMismatch
  | .seq hs =>
      if hs.length ≠ cfg.neckHiddenSizes.length then .error .structuralMismatch
      else
        let reassembled := reassembleStage cfg w.reassembleW hs patch_height patch_width
        let features := (reassembled.zip w.convsW).map
          (fun p => conv2d cfg.fusionHiddenSize 3 1 1 p.2 p.1)
        .ok (fusionStageForward bilin cfg w.fusionW features none prompt_depth)

/-- Output object of the external backbone
(`self.backbone.forward_with_filtered_kwargs`). -/
structure BackboneOutput where
  feature_maps : List Tensor
  hidden_states : Option (List Tensor)
  attentions : Option (List Tensor)

/-- Modelled from the spec: the plain-tuple rendering of the backbone
output used by the non-structured return path (`outputs[1:]` and
`outputs[2:]` slice the tuple of present fields). -/
def BackboneOutput.toTuple (o : BackboneOutput) : List (List Tensor) :=
  [o.feature_maps]
    ++ (match o.hidden_states with | some h => [h] | none => [])
    ++ (match o.attentions with | some a => [a] | none => [])

/-- The structured `DepthEstimatorOutput` returned when `return_dict`. -/
structure DepthEstimatorOutput where
  loss : Option Tensor3
  predicted_depth : Tensor3
  hidden_states : Option (List Tensor)
  attentions : Option (List Tensor)

/-- Result of the top-level forward: either the structured output or the
plain ordered tuple. -/
inductive ForwardResult where
  | dict (o : DepthEstimatorOutput)
  | tuple (predicted_depth : Tensor3) (rest : List (List Tensor))

/-- The predicted depth carried by either result form. -/
def predictedOf : ForwardResult → Tensor3
  | .dict o => o.predicted_depth
  | .tuple p _ => p

/-- Assembly of the return structure (source lines 361 to 373): the plain
tuple `(predicted_depth,) + outputs[1:]` (or `outputs[2:]`) when
`return_dict` is false, the structured output otherwise; `loss` is always
absent on this path. -/
def assembleResult (outputs : BackboneOutput) (output_hidden_states return_dict : Bool)
    (predicted_depth : Tensor3) : ForwardResult :=
  if !return_dict then
    .tuple predicted_depth
      (if output_hidden_states then outputs.toTuple.drop 1 else outputs.toTuple.drop 2)
  else
    .dict { loss := none, predicted_depth := predicted_depth
            hidden_states := if output_hidden_states then outputs.hidden_states else none
            attentions := outputs.attentions }

/-- All learned or external components of the top-level model: the backbone
collaborator (taking the pixel values and the two output flags), the neck
weights and the head weights. -/
structure ForwardW where
  backbone : Tensor → Bool → Bool → BackboneOutput
  neckW : NeckW
  headW : HeadW

/-- The patch grid: pixel height and width floor-divided by the patch size. -/
def patchGrid (cfg : PromptDepthAnythingConfig) (pixel_values : Tensor) : Nat × Nat :=
  (pixel_values.height / cfg.patchSize, pixel_values.width / cfg.patchSize)

/-- `PromptDepthAnythingForDepthEstimation.forward`: reject `labels`
(training unimplemented), resolve the output flags against the
configuration, invoke the backbone, compute the patch grid, normalize the
prompt depth per batch element with the degenerate-range correction when a
prompt is supplied, run the neck and the head, denormalize with the
retained range when a prompt was supplied, and assemble the result. -/
def forward (bilin : Resample) (cfg : PromptDepthAnythingConfig) (w : ForwardW)
    (pixel_values : Tensor) (labels : Option Tensor)
    (output_attentions output_hidden_states : Option Bool)
    (prompt_depth : Option Tensor) (return_dict : Option Bool) :
    Except ModelError ForwardResult :=
  match labels with
  | some _ => .error .notImplemented
  | none =>
      let return_dict := return_dict.getD cfg.useReturnDict
      let output_hidden_states := output_hidden_states.getD cfg.outputHiddenStates
      let output_attentions := output_attentions.getD cfg.outputAttentions
      let outputs := w.backbone pixel_values output_hidden_states output_attentions
      let hidden_states := outputs.feature_maps
      let pg := patchGrid cfg pixel_values
      let promptNorm : Option Tensor := prompt_depth.map fun pd =>
        normalizeTensor pd (batchMin pd) (correctedBatchMax pd)
      match neckForward bilin cfg w.neckW (.seq hidden_states) pg.1 pg.2 promptNorm with
      | .error e => .error e
      | .ok fused =>
          match headForward bilin cfg w.headW fused pg.1 pg.2 with
          | .error e => .error e
          | .ok predicted0 =>
              let predicted_depth :=
                match prompt_depth with
                | some pd => denormTensor predicted0 (batchMin pd) (correctedBatchMax pd)
                | none => predicted0
              .ok (assembleResult outputs output_hidden_states return_dict predicted_depth)

/-- Modelled from the spec (scenario D reference variant): the fusion layer
with the prompt-depth injection branch removed; otherwise identical to
`fusionLayerForward`. -/
def fusionLayerForwardNoPrompt (bilin : Resample) (cfg : PromptDepthAnythingConfig)
    (w : FusionLayerW) (hidden_state : Tensor) (residual : Option Tensor)
    (size : Option (Nat × Nat)) : Tensor :=
  let hidden_state :=
    match residual with
    | none => hidden_state
    | some residual =>
        let residual :=
          if (hidden_state.batch, hidden_state.channels, hidden_state.height, hidden_state.width)
              ≠ (residual.batch, residual.channels, residual.height, residual.width) then
            interpolate bilin residual (some (hidden_state.height, hidden_state.width)) false
          else residual
        hidden_state.add (preActResidual cfg w.res1a w.res1b residual)
  let hidden_state := preActResidual cfg w.res2a w.res2b hidden_state
  let hidden_state := interpolate bilin hidden_state size true
  conv2d cfg.fusionHiddenSize 1 1 0 w.projectionW hidden_state

/-- Modelled from the spec (scenario D reference variant): the fusion-stage
loop without the prompt-depth argument. -/
def fusionStageGoNoPrompt (bilin : Resample) (cfg : PromptDepthAnythingConfig) :
    List Tensor → List FusionLayerW → Option Tensor → List Tensor
  | [], _, _ => []
  | _ :: _, [], _ => []
  | hidden_state :: rest, layer :: layers, fused_hidden_state =>
      let size : Option (Nat × Nat) :=
        match rest with
        | [] => none
        | nxt :: _ => some (nxt.height, nxt.width)
      let fused :=
        match fused_hidden_state with
        | none => fusionLayerForwardNoPrompt bilin cfg layer hidden_state none size
        | some f => fusionLayerForwardNoPrompt bilin cfg layer f (some hidden_state) size
      fused :: fusionStageGoNoPrompt bilin cfg rest layers (some fused)

/-- Modelled from the spec (scenario D reference variant): the fusion stage
without the prompt-depth argument. -/
def fusionStageForwardNoPrompt (bilin : Resample) (cfg : PromptDepthAnythingConfig)
    (layers : List FusionLayerW) (hidden_states : List Tensor)
    (size : Option (Nat × Nat)) : List Tensor :=
  fusionStageGoNoPrompt bilin cfg hidden_states.reverse layers none

/-- Modelled from the spec (scenario D reference variant): the neck without
the prompt-depth argument. -/
def neckForwardNoPrompt (bilin : Resample) (cfg : PromptDepthAnythingConfig)
    (w : NeckW) (hidden_states : NeckArg) (patch_height patch_width : Nat) :
    Except ModelError (List Tensor) :=
  match hidden_states with
  | .notASequence => .error .typeMismatch
  | .seq hs =>
      if hs.length ≠ cfg.neckHiddenSizes.length then .error .structuralMismatch
      else
        let reassembled := reassembleStage cfg w.reassembleW hs patch_height patch_width
        let features := (reassembled.zip w.convsW).map
          (fun p => conv2d cfg.fusionHiddenSize 3 1 1 p.2 p.1)
        .ok (fusionStageForwardNoPrompt bilin cfg w.fusionW features none)

/-- Modelled from the spec (scenario D reference variant): the top-level
forward with every prompt-depth branch removed — no per-batch
normalization, no prompt injection inside the fusion layers, no final
denormalization. -/
def forwardNoPrompt (bilin : Resample) (cfg : PromptDepthAnythingConfig) (w : ForwardW)
    (pixel_values : Tensor) (labels : Option Tensor)
    (output_attentions output_hidden_states : Option Bool)
    (return_dict : Option Bool) : Except ModelError ForwardResult :=
  match labels with
  | some _ => .error .notImplemented
  | none =>
      let return_dict := return_dict.getD cfg.useReturnDict
      let output_hidden_states := output_hidden_states.getD cfg.outputHiddenStates
      let output_attentions := output_attentions.getD cfg.outputAttentions
      let outputs := w.backbone pixel_values output_hidden_states output_attentions
      let hidden_states := outputs.feature_maps
      let pg := patchGrid cfg pixel_values
      match neckForwardNoPrompt bilin cfg w.neckW (.seq hidden_states) pg.1 pg.2 with
      | .error e => .error e
      | .ok fused =>
          match headForward bilin cfg w.headW fused pg.1 pg.2 with
          | .error e => .error e
          | .ok predicted_depth =>
              .ok (assembleResult outputs output_hidden_states return_dict predicted_depth)

/-- A sigmoid-like bounded activation: values in the unit interval. -/
def boundedAct (f : Val → Val) : Prop := ∀ x, 0 ≤ f x ∧ f x ≤ 1

/-- A concrete trivial convolution kernel (all outputs zero), used to
instantiate the abstract learned weights on concrete test inputs. -/
def zeroConvW : ConvW := fun _ _ _ _ _ => 0

/-- A concrete trivial bilinear resampler, used on concrete test inputs. -/
def zeroResample : Resample := fun _ _ _ _ _ _ _ _ => 0

/-- Trivial prompt-layer weights. -/
def zeroPromptW : PromptLayerW := { conv1 := zeroConvW, conv2 := zeroConvW, conv3 := zeroConvW }

/-- Trivial fusion-layer weights. -/
def zeroFusionW : FusionLayerW :=
  { res1a := zeroConvW, res1b := zeroConvW, res2a := zeroConvW, res2b := zeroConvW
    projectionW := zeroConvW, promptW := zeroPromptW }

/-- Trivial reassemble-layer weights. -/
def zeroReassembleW : ReassembleLayerW := { projection := zeroConvW, resizeW := zeroConvW }

/-- A constant tensor of a given shape. -/
def constT (b c h w : Nat) (v : Val) : Tensor :=
  { batch := b, channels := c, height := h, width := w, data := fun _ _ _ _ => v }

/-- A one-batch single-channel `1 x 2` tensor holding the values `0` and
`1`, a prompt with a non-degenerate range. -/
def rampT : Tensor :=
  { batch := 1, channels := 1, height := 1, width := 2
    data := fun _ _ _ j => if j = 0 then 0 else 1 }

/-- A uniform prompt (all values `5`), a degenerate range. -/
def uniformT : Tensor := constT 1 1 1 2 5

/-- Extracts the predicted-depth value at one index from a forward result. -/
def okDepthValue (r : Except ModelError ForwardResult) (b i j : Nat) : Option Val :=
  match r with
  | .ok res => some ((predictedOf res).data b i j)
  | .error _ => none

/-- Extracts the predicted-depth shape from a forward result. -/
def resultDepthShape (r : Except ModelError ForwardResult) : Option (Nat × Nat × Nat) :=
  match r with
  | .ok res => some ((predictedOf res).batch, (predictedOf res).height, (predictedOf res).width)
  | .error _ => none

/-- Extracts the payload of a successful forward call, with a fallback. -/
def getOkD (r : Except ModelError ForwardResult) (d : ForwardResult) : ForwardResult :=
  match r with
  | .ok res => res
  | .error _ => d

/-- A one-level configuration with `max_depth = 2`, used to exercise the
denormalization bound. -/
def cfgC4 : PromptDepthAnythingConfig :=
  { patchSize := 1, fusionHiddenSize := 1, neckHiddenSizes := [1]
    reassembleFactors := [1], reassembleHiddenSize := 1, headInIndex := -1
    headConv1Out := 1, headConv2Out := 1, maxDepth := 2
    useReturnDict := true, outputHiddenStates := false, outputAttentions := false }

/-- The same configuration with `max_depth = 1`. -/
def cfgC4w : PromptDepthAnythingConfig := { cfgC4 with maxDepth := 1 }

/-- A constant sigmoid-like activation with value `3/4`: bounded in the
unit interval, as the spec requires of the head activation. -/
def c4act : Val → Val := fun _ => 3 / 4

/-- Concrete one-level weights whose head activation is `c4act`. -/
def wC4 : ForwardW :=
  { backbone := fun _ _ _ =>
      { feature_maps := [constT 1 1 1 1 0], hidden_states := none, attentions := none }
    neckW := { reassembleW := [zeroReassembleW], convsW := [zeroConvW], fusionW := [zeroFusionW] }
    headW := { conv1W := zeroConvW, conv2W := zeroConvW, conv3W := zeroConvW, act2 := c4act } }

/-- A one-pixel image input. -/
def pixelC4 : Tensor := constT 1 3 1 1 0

/-- The successful result of the forward call of the `max_depth = 1`
configuration on the concrete instance. -/
def c4wRes : ForwardResult :=
  getOkD (forward zeroResample cfgC4w wC4 pixelC4 none none none (some rampT) (some true))
    (.tuple { batch := 0, height := 0, width := 0, data := fun _ _ _ => 0 } [])

/-- A minimal configuration for fusion-stage shape tests. -/
def cfgC5 : PromptDepthAnythingConfig :=
  { patchSize := 1, fusionHiddenSize := 1, neckHiddenSizes := [1, 1]
    reassembleFactors := [1, 1], reassembleHiddenSize := 1, headInIndex := -1
    headConv1Out := 1, headConv2Out := 1, maxDepth := 1
    useReturnDict := true, outputHiddenStates := false, outputAttentions := false }

/-- A two-level reassembled list, finest level (4 x 4) at index 0. -/
def hsC5 : List Tensor := [constT 1 1 4 4 0, constT 1 1 2 2 0]

/-- Two trivial fusion layers. -/
def layersC5 : List FusionLayerW := [zeroFusionW, zeroFusionW]

/-- The configuration of end-to-end scenario A: patch size 14, four neck
levels with the standard reassemble factors. -/
def cfgC9 : PromptDepthAnythingConfig :=
  { patchSize := 14, fusionHiddenSize := 64, neckHiddenSizes := [48, 96, 192, 384]
    reassembleFactors := [4, 2, 1, (1 : ℚ) / 2], reassembleHiddenSize := 384
    headInIndex := -1, headConv1Out := 32, headConv2Out := 32, maxDepth := 1
    useReturnDict := true, outputHiddenStates := false, outputAttentions := false }

/-- Four-level trivial weights whose backbone emits four feature maps. -/
def wC9 : ForwardW :=
  { backbone := fun _ _ _ =>
      { feature_maps :=
          [constT 1 1036 384 1 0, constT 1 1036 384 1 0,
           constT 1 1036 384 1 0, constT 1 1036 384 1 0]
        hidden_states := none, attentions := none }
    neckW :=
      { reassembleW := [zeroReassembleW, zeroReassembleW, zeroReassembleW, zeroReassembleW]
        convsW := [zeroConvW, zeroConvW, zeroConvW, zeroConvW]
        fusionW := [zeroFusionW, zeroFusionW, zeroFusionW, zeroFusionW] }
    headW := { conv1W := zeroConvW, conv2W := zeroConvW, conv3W := zeroConvW
               act2 := fun _ => 0 } }

/-- The pixel input of end-to-end scenario A: shape `[1, 3, 392, 518]`. -/
def pixelC9 : Tensor := constT 1 3 392 518 0

/-- A `1 x 1 x 3 x 3` tensor for reassemble-layer shape tests. -/
def tC6 : Tensor := constT 1 1 3 3 0

/-- Helper: length of the fusion loop output is the length of the zipped
lists. -/
theorem fusionStageGo_length (bilin : Resample) (cfg : PromptDepthAnythingConfig)
    (pd : Option Tensor) :
    ∀ (rev : List Tensor) (layers : List FusionLayerW) (fused : Option Tensor),
      (fusionStageGo bilin cfg pd rev layers fused).length = min rev.length layers.length := by
  intro rev
  induction rev with
  | nil => intro layers fused; simp [fusionStageGo]
  | cons h rest ih =>
      intro layers fused
      cases layers with
      | nil => simp [fusionStageGo]
      | cons l ls =>
          simp only [fusionStageGo, List.length_cons, ih]
          omega

/-- Helper: a fusion layer called with an explicit positive target size
produces exactly that spatial size. -/
theorem fusionLayerForward_spatial_some (bilin : Resample)
    (cfg : PromptDepthAnythingConfig) (w : FusionLayerW) (h : Tensor)
    (r pd : Option Tensor) (sh sw : Nat) (hh : 1 ≤ sh) (hw : 1 ≤ sw) :
    (fusionLayerForward bilin cfg w h r (some (sh, sw)) pd).height = sh ∧
    (fusionLayerForward bilin cfg w h r (some (sh, sw)) pd).width = sw := by
  simp only [fusionLayerForward, interpolate, conv2d]
  omega

/-- Helper: a fusion layer called without a target size doubles the spatial
size of its first argument. -/
theorem fusionLayerForward_spatial_none (bilin : Resample)
    (cfg : PromptDepthAnythingConfig) (w : FusionLayerW) (h : Tensor)
    (r pd : Option Tensor) (hh : 1 ≤ h.height) (hw : 1 ≤ h.width) :
    (fusionLayerForward bilin cfg w h r none pd).height = 2 * h.height ∧
    (fusionLayerForward bilin cfg w h r none pd).width = 2 * h.width := by
  cases r <;> cases pd <;>
    simp only [fusionLayerForward, interpolate, conv2d, Tensor.add, preActResidual,
      promptLayerForward, relu] <;>
    omega

/-- Helper: the spatial size of the last fusion output is twice the spatial
size of the last element of the reversed input list, provided the loop
invariant (the incoming accumulator matches the head of the remaining
list) and all spatial dimensions are positive. -/
theorem fusionStageGo_last (bilin : Resample) (cfg : PromptDepthAnythingConfig)
    (pd : Option Tensor) :
    ∀ (rev : List Tensor) (layers : List FusionLayerW) (fused : Option Tensor),
      rev.length = layers.length →
      (∀ t ∈ rev, 1 ≤ t.height ∧ 1 ≤ t.width) →
      (∀ f h, fused = some f → rev.head? = some h →
        f.height = h.height ∧ f.width = h.width) →
      ((fusionStageGo bilin cfg pd rev layers fused).getLast?).map spatialSize
        = (rev.getLast?).map fun t => (2 * t.height, 2 * t.width) := by
  intro rev
  induction rev with
  | nil => intro layers fused _ _ _; simp [fusionStageGo]
  | cons h rest ih =>
      intro layers fused hlen hdim hinv
      cases layers with
      | nil => simp at hlen
      | cons l ls =>
          cases rest with
          | nil =>
              have hls : ls = [] := by
                cases ls with
                | nil => rfl
                | cons a b => simp at hlen
              subst hls
              simp only [fusionStageGo, List.getLast?_singleton, Option.map_some]
              have hhd : 1 ≤ h.height ∧ 1 ≤ h.width := hdim h (by simp)
              cases fused with
              | none =>
                  have := fusionLayerForward_spatial_none bilin cfg l h none pd hhd.1 hhd.2
                  simp [spatialSize, this.1, this.2]
              | some f =>
                  have hf := hinv f h rfl rfl
                  have := fusionLayerForward_spatial_none bilin cfg l f (some h) pd
                    (hf.1 ▸ hhd.1) (hf.2 ▸ hhd.2)
                  simp [spatialSize, this.1, this.2, hf.1, hf.2]
          | cons h2 rest2 =>
              cases ls with
              | nil => simp at hlen
              | cons l2 ls2 =>
                  have hh2 : 1 ≤ h2.height ∧ 1 ≤ h2.width := hdim h2 (by simp)
                  simp only [fusionStageGo]
                  rw [List.getLast?_cons_cons, List.getLast?_cons_cons]
                  have hlen2 : (h2 :: rest2).length = (l2 :: ls2).length := by
                    simpa using hlen
                  have hdim2 : ∀ t ∈ h2 :: rest2, 1 ≤ t.height ∧ 1 ≤ t.width := by
                    intro t ht; exact hdim t (List.mem_cons_of_mem _ ht)
                  cases fused with
                  | none =>
                      have hsz := fusionLayerForward_spatial_some bilin cfg l h none pd
                        h2.height h2.width hh2.1 hh2.2
                      have := ih (l2 :: ls2)
                        (some (fusionLayerForward bilin cfg l h none
                          (some (h2.height, h2.width)) pd)) hlen2 hdim2
                        (by intro f hd hf hhd
                            simp only [List.head?_cons, Option.some.injEq] at hhd
                            subst hhd
                            injection hf with hf
                            subst hf
                            exact ⟨hsz.1, hsz.2⟩)
                      simpa [fusionStageGo] using this
                  | some f0 =>
                      have hsz := fusionLayerForward_spatial_some bilin cfg l f0
                        (some h) pd h2.height h2.width hh2.1 hh2.2
                      have := ih (l2 :: ls2)
                        (some (fusionLayerForward bilin cfg l f0 (some h)
                          (some (h2.height, h2.width)) pd)) hlen2 hdim2
                        (by intro f hd hf hhd
                            simp only [List.head?_cons, Option.some.injEq] at hhd
                            subst hhd
                            injection hf with hf
                            subst hf
                            exact ⟨hsz.1, hsz.2⟩)
                      simpa [fusionStageGo] using this

/-- Helper: with no prompt, a fusion layer coincides with the variant whose
prompt branch is removed. -/
theorem fusionLayerForward_prompt_none (bilin : Resample)
    (cfg : PromptDepthAnythingConfig) (w : FusionLayerW) (h : Tensor)
    (r : Option Tensor) (sz : Option (Nat × Nat)) :
    fusionLayerForward bilin cfg w h r sz none
      = fusionLayerForwardNoPrompt bilin cfg w h r sz := rfl

/-- Helper: with no prompt, the fusion loop coincides with the variant
loop. -/
theorem fusionStageGo_prompt_none (bilin : Resample) (cfg : PromptDepthAnythingConfig) :
    ∀ (rev : List Tensor) (layers : List FusionLayerW) (fused : Option Tensor),
      fusionStageGo bilin cfg none rev layers fused
        = fusionStageGoNoPrompt bilin cfg rev layers fused := by
  intro rev
  induction rev with
  | nil => intro layers fused; rfl
  | cons h rest ih =>
      intro layers fused
      cases layers with
      | nil => rfl
      | cons l ls =>
          cases fused with
          | none =>
              simp only [fusionStageGo, fusionStageGoNoPrompt, ih,
                fusionLayerForward_prompt_none]
          | some f =>
              simp only [fusionStageGo, fusionStageGoNoPrompt, ih,
                fusionLayerForward_prompt_none]

/-- Helper: with no prompt, the neck coincides with the variant neck. -/
theorem neckForward_prompt_none (bilin : Resample) (cfg : PromptDepthAnythingConfig)
    (w : NeckW) (hs : NeckArg) (ph pw : Nat) :
    neckForward bilin cfg w hs ph pw none = neckForwardNoPrompt bilin cfg w hs ph pw := by
  cases hs with
  | notASequence => rfl
  | seq l =>
      simp only [neckForward, neckForwardNoPrompt, fusionStageForward,
        fusionStageForwardNoPrompt, fusionStageGo_prompt_none]

/-- Helper: the predicted depth of an assembled result is the tensor that
was assembled, on both return paths. -/
theorem predictedOf_assembleResult (o : BackboneOutput) (ohs rd : Bool) (p : Tensor3) :
    predictedOf (assembleResult o ohs rd p) = p := by
  cases rd <;> simp [assembleResult, predictedOf]

/-- Helper: a successful head call yields values of the form
`activation2(x) * max_depth`, hence bounded by `max_depth` when the
activation is bounded. -/
theorem headForward_ok_bound (bilin : Resample) (cfg : PromptDepthAnythingConfig)
    (w : HeadW) (hs : List Tensor) (ph pw : Nat) (p : Tensor3)
    (hb : boundedAct w.act2) (hm : 0 ≤ cfg.maxDepth)
    (hok : headForward bilin cfg w hs ph pw = .ok p) :
    ∀ b i j, 0 ≤ p.data b i j ∧ p.data b i j ≤ cfg.maxDepth := by
  unfold headForward at hok
  cases hpg : pyGet hs cfg.headInIndex with
  | none => rw [hpg] at hok; exact absurd hok (by simp)
  | some hsel =>
      rw [hpg] at hok
      simp only [Except.ok.injEq] at hok
      subst hok
      intro b i j
      simp only [squeezeChannel, scaleAct]
      constructor
      · exact mul_nonneg (hb _).1 hm
      · calc w.act2 _ * cfg.maxDepth ≤ 1 * cfg.maxDepth :=
              mul_le_mul_of_nonneg_right (hb _).2 hm
          _ = cfg.maxDepth := one_mul _

/-- Helper: the per-batch minimum never exceeds the corrected per-batch
maximum; the corrected difference is strictly positive. -/
theorem batchMin_lt_correctedBatchMax (t : Tensor) (b : Nat) :
    batchMin t b < correctedBatchMax t b := by
  unfold correctedBatchMax
  split
  · have : (0 : Val) < depthEps := by norm_num [depthEps]
    linarith
  · next h =>
      push_neg at h
      linarith

/-- C1: for every pixel input (and every configuration, learned weights,
backbone and output flags), calling the top-level forward with
`prompt_depth = None` produces output identical to the variant pipeline in
which every prompt-depth branch (per-batch normalization, prompt injection
inside each fusion layer, final denormalization) is removed: the optional
prompt path is a true no-op extension when the prompt is absent. -/
theorem claim_C1_prompt_none_noop (bilin : Resample) (cfg : PromptDepthAnythingConfig)
    (w : ForwardW) (pixel_values : Tensor) (labels : Option Tensor)
    (oa ohs rd : Option Bool) :
    forward bilin cfg w pixel_values labels oa ohs none rd
      = forwardNoPrompt bilin cfg w pixel_values labels oa ohs rd := by
  cases labels with
  | some l => rfl
  | none =>
      simp only [forward, forwardNoPrompt, Option.map_none', neckForward_prompt_none]

/-- C2: for every prompt-depth tensor and batch element whose per-batch
range satisfies `max > min`, normalizing an element with that (min, max)
pair and then denormalizing with the same pair recovers the original value
exactly (over the exact rational arithmetic of the embedding), with no
other transform in between. -/
theorem claim_C2_normalize_roundtrip (t : Tensor) (b c i j : Nat)
    (h : batchMin t b < batchMax t b) :
    denormalizeVal (batchMin t b) (batchMax t b)
        ((normalizeTensor t (batchMin t) (batchMax t)).data b c i j)
      = t.data b c i j := by
  have hne : batchMax t b - batchMin t b ≠ 0 := sub_ne_zero.mpr (ne_of_gt h)
  simp only [normalizeTensor, normalizeVal, denormalizeVal]
  rw [div_mul_cancel₀ _ hne]
  ring

/-- Witness for C2 on a concrete prompt with values 0 and 1. -/
theorem claim_C2_normalize_roundtrip_witness :
    batchMin rampT 0 < batchMax rampT 0 ∧
    denormalizeVal (batchMin rampT 0) (batchMax rampT 0)
        ((normalizeTensor rampT (batchMin rampT) (batchMax rampT)).data 0 0 0 1)
      = rampT.data 0 0 0 1 :=
  ⟨by norm_num [batchMin, batchMax, batchValues, listMin, listMax, rampT, List.range_succ],
   claim_C2_normalize_roundtrip rampT 0 0 0 1
     (by norm_num [batchMin, batchMax, batchValues, listMin, listMax, rampT, List.range_succ])⟩

/-- C3: for every batch element, if the raw range is degenerate
(`max - min <= 0`) the corrected maximum is `min + 1e-6`, so the corrected
difference is exactly `1e-6`; a non-degenerate range is left unchanged; and
in all cases the corrected difference is strictly positive, so the
normalization divisor is never zero (no NaN in the exact embedding). -/
theorem claim_C3_degenerate_range_correction (t : Tensor) (b : Nat) :
    (batchMax t b - batchMin t b ≤ 0 →
      correctedBatchMax t b - batchMin t b = depthEps) ∧
    (0 < batchMax t b - batchMin t b →
      correctedBatchMax t b = batchMax t b) ∧
    0 < correctedBatchMax t b - batchMin t b ∧
    correctedBatchMax t b - batchMin t b ≠ 0 := by
  refine ⟨?_, ?_, ?_, ?_⟩
  · intro h
    simp only [correctedBatchMax, if_pos h]
    ring
  · intro h
    simp only [correctedBatchMax, if_neg (by linarith : ¬ batchMax t b - batchMin t b ≤ 0)]
  · have := batchMin_lt_correctedBatchMax t b
    linarith
  · have := batchMin_lt_correctedBatchMax t b
    intro hc
    have : batchMin t b = correctedBatchMax t b := by linarith
    linarith

/-- Witness for C3 on a concrete uniform prompt (all values 5). -/
theorem claim_C3_degenerate_range_correction_witness :
    batchMax uniformT 0 - batchMin uniformT 0 ≤ 0 ∧
    correctedBatchMax uniformT 0 - batchMin uniformT 0 = depthEps :=
  ⟨by norm_num [batchMin, batchMax, batchValues, listMin, listMax, uniformT, constT,
      List.range_succ],
   (claim_C3_degenerate_range_correction uniformT 0).1
     (by norm_num [batchMin, batchMax, batchValues, listMin, listMax, uniformT, constT,
        List.range_succ])⟩

/-- C7: for every call of the top-level forward in which `labels` is
non-null, the call fails with the not-implemented error; the result is the
same for every backbone, weight set, pixel tensor and prompt, which in this
pure embedding expresses that no tensor computation on `pixel_values` (in
particular no backbone invocation) contributes to the outcome and no
partial output is produced. -/
theorem claim_C7_labels_rejected (bilin : Resample) (cfg : PromptDepthAnythingConfig)
    (w : ForwardW) (pixel_values : Tensor) (l : Tensor) (oa ohs : Option Bool)
    (prompt_depth : Option Tensor) (rd : Option Bool) :
    forward bilin cfg w pixel_values (some l) oa ohs prompt_depth rd
      = .error .notImplemented := rfl

/-- C10: the `size` parameter of the fusion-stage forward has no effect on
the result: two calls differing only in `size` return identical output
lists, because the loop reassigns `size` from the next reversed element (or
`None`) before any use. -/
theorem claim_C10_stage_size_param_dead (bilin : Resample)
    (cfg : PromptDepthAnythingConfig) (layers : List FusionLayerW)
    (hidden_states : List Tensor) (s1 s2 : Option (Nat × Nat))
    (prompt_depth : Option Tensor) :
    fusionStageForward bilin cfg layers hidden_states s1 prompt_depth
      = fusionStageForward bilin cfg layers hidden_states s2 prompt_depth := rfl

/-- C8: the neck fails immediately with the type-mismatch error whenever
its feature-map argument is not an ordered sequence, and with the
structural-mismatch error whenever the list length differs from the number
of configured neck hidden sizes; the result is the same for every weight
set, patch grid and prompt, which in this pure embedding expresses that no
stage of the reassemble/fusion pipeline contributes to the outcome. -/
theorem claim_C8_neck_input_validation (bilin : Resample)
    (cfg : PromptDepthAnythingConfig) (w : NeckW) (ph pw : Nat)
    (prompt_depth : Option Tensor) :
    neckForward bilin cfg w .notASequence ph pw prompt_depth = .error .typeMismatch ∧
    (∀ hs : List Tensor, hs.length ≠ cfg.neckHiddenSizes.length →
      neckForward bilin cfg w (.seq hs) ph pw prompt_depth = .error .structuralMismatch) := by
  constructor
  · rfl
  · intro hs hlen
    simp only [neckForward, if_pos hlen]

/-- Witness for C8 on a concrete configuration with one neck level and an
empty feature-map list. -/
theorem claim_C8_neck_input_validation_witness :
    neckForward zeroResample cfgC4 wC4.neckW .notASequence 1 1 none
        = .error .typeMismatch ∧
    neckForward zeroResample cfgC4 wC4.neckW (.seq []) 1 1 none
        = .error .structuralMismatch :=
  ⟨(claim_C8_neck_input_validation zeroResample cfgC4 wC4.neckW 1 1 none).1,
   (claim_C8_neck_input_validation zeroResample cfgC4 wC4.neckW 1 1 none).2 []
     (by norm_num [cfgC4])⟩

/-- C4 (amended): when `prompt_depth` is supplied and the head activation
is bounded in the unit interval (the sigmoid-like activation of the spec),
every value of the final predicted depth returned by a successful top-level
forward lies in the interval `[min, max]` of that batch element's corrected
prompt-depth range, provided the configured `max_depth` scaling factor is
between 0 and 1. -/
theorem claim_C4_denorm_bounded (bilin : Resample) (cfg : PromptDepthAnythingConfig)
    (w : ForwardW) (pixel_values : Tensor) (oa ohs rd : Option Bool)
    (pd : Tensor) (r : ForwardResult)
    (hb : boundedAct w.headW.act2) (hm0 : 0 ≤ cfg.maxDepth) (hm1 : cfg.maxDepth ≤ 1)
    (hok : forward bilin cfg w pixel_values none oa ohs (some pd) rd = .ok r)
    (b i j : Nat) :
    batchMin pd b ≤ (predictedOf r).data b i j ∧
    (predictedOf r).data b i j ≤ correctedBatchMax pd b := by
  simp only [forward, Option.map_some'] at hok
  split at hok
  · exact absurd hok (by simp)
  · next fused hneck =>
      split at hok
      · exact absurd hok (by simp)
      · next p hhead =>
          injection hok with hok
          subst hok
          rw [predictedOf_assembleResult]
          have hbnd := headForward_ok_bound bilin cfg w.headW fused
            (patchGrid cfg pixel_values).1 (patchGrid cfg pixel_values).2 p hb hm0 hhead
          have h1 := (hbnd b i j).1
          have h2 := (hbnd b i j).2
          have hmm := batchMin_lt_correctedBatchMax pd b
          simp only [denormTensor, denormalizeVal]
          constructor
          · have : 0 ≤ p.data b i j * (correctedBatchMax pd b - batchMin pd b) :=
              mul_nonneg h1 (by linarith)
            linarith
          · have hv1 : p.data b i j ≤ 1 := le_trans h2 hm1
            have : (1 - p.data b i j) * (correctedBatchMax pd b - batchMin pd b) ≥ 0 :=
              mul_nonneg (by linarith) (by linarith)
            nlinarith

/-- Witness for the amended C4: on a concrete instance with `max_depth = 1`
and the bounded constant activation `3/4`, the denormalized prediction of a
successful forward lies in the corrected range of the prompt. -/
theorem claim_C4_denorm_bounded_witness :
    boundedAct wC4.headW.act2 ∧ (0 : Val) ≤ cfgC4w.maxDepth ∧ cfgC4w.maxDepth ≤ 1 ∧
    (batchMin rampT 0 ≤ (predictedOf c4wRes).data 0 0 0 ∧
      (predictedOf c4wRes).data 0 0 0 ≤ correctedBatchMax rampT 0) :=
  ⟨by intro x; constructor <;> norm_num [wC4, c4act],
   by norm_num [cfgC4w, cfgC4],
   by norm_num [cfgC4w, cfgC4],
   claim_C4_denorm_bounded zeroResample cfgC4w wC4 pixelC4 none none (some true) rampT c4wRes
     (by intro x; constructor <;> norm_num [wC4, c4act])
     (by norm_num [cfgC4w, cfgC4]) (by norm_num [cfgC4w, cfgC4]) (by rfl) 0 0 0⟩

/-- Counterexample to C4 as stated: with `max_depth = 2` (a configuration
the claim does not exclude) and the bounded activation with constant value
`3/4`, the forward call on a prompt with corrected range `[0, 1]` returns
the depth value `3/2`, which lies outside `[min, max]`. -/
theorem claim_C4_counterexample :
    boundedAct wC4.headW.act2 ∧ (0 : Val) ≤ cfgC4.maxDepth ∧
    okDepthValue (forward zeroResample cfgC4 wC4 pixelC4 none none none
        (some rampT) (some true)) 0 0 0 = some (3 / 2) ∧
    batchMin rampT 0 = 0 ∧ correctedBatchMax rampT 0 = 1 ∧
    ¬ ((3 : Val) / 2 ≤ correctedBatchMax rampT 0) := by
  refine ⟨by intro x; constructor <;> norm_num [wC4, c4act], by norm_num [cfgC4], ?_, ?_, ?_, ?_⟩
  · norm_num [forward, neckForward, reassembleStage, reassembleLayerForward, reassembleResize,
      strideOfFactor, tokensToSpatial, fusionStageForward, fusionStageGo, fusionLayerForward,
      preActResidual, promptLayerForward, interpolate, conv2d, convTranspose2d, relu, Tensor.add,
      headForward, headTarget, pyGet, scaleAct, squeezeChannel, assembleResult, predictedOf,
      okDepthValue, patchGrid, cfgC4, wC4, pixelC4, rampT, constT, zeroConvW, zeroResample,
      zeroFusionW, zeroReassembleW, zeroPromptW, c4act, Int.toNat_ofNat, List.get?,
      normalizeTensor, denormTensor, normalizeVal, denormalizeVal, batchMin, batchMax,
      correctedBatchMax, batchValues, listMin, listMax, depthEps, List.range_succ]
  · norm_num [batchMin, batchValues, listMin, rampT, List.range_succ]
  · norm_num [correctedBatchMax, batchMin, batchMax, batchValues, listMin, listMax, rampT,
      depthEps, List.range_succ]
  · norm_num [correctedBatchMax, batchMin, batchMax, batchValues, listMin, listMax, rampT,
      depthEps, List.range_succ]

/-- C5 (amended): for every input list of reassembled feature maps (with
one fusion layer per level and positive spatial dimensions), the fusion
stage returns a list of the same length as its input, and the last element
of the returned list has spatial resolution equal to TWICE the finest
reassembled level's resolution — the final position uses the default
scale-factor-2 upsample, not the finest level's own size. -/
theorem claim_C5_fusion_stage_output (bilin : Resample)
    (cfg : PromptDepthAnythingConfig) (layers : List FusionLayerW)
    (hs : List Tensor) (sz : Option (Nat × Nat)) (pd : Option Tensor)
    (hlen : layers.length = hs.length)
    (hdim : ∀ t ∈ hs, 1 ≤ t.height ∧ 1 ≤ t.width) :
    (fusionStageForward bilin cfg layers hs sz pd).length = hs.length ∧
    ((fusionStageForward bilin cfg layers hs sz pd).getLast?).map spatialSize
      = (hs.head?).map fun t => (2 * t.height, 2 * t.width) := by
  constructor
  · rw [fusionStageForward, fusionStageGo_length]
    simp [hlen]
  · rw [fusionStageForward, fusionStageGo_last]
    · rw [List.getLast?_reverse]
    · simp [hlen]
    · intro t ht
      exact hdim t (List.mem_reverse.mp ht)
    · intro f h hf _
      exact absurd hf (by simp)

/-- Witness for the amended C5 on a concrete two-level instance. -/
theorem claim_C5_fusion_stage_output_witness :
    layersC5.length = hsC5.length ∧
    ((fusionStageForward zeroResample cfgC5 layersC5 hsC5 none none).length = hsC5.length ∧
      ((fusionStageForward zeroResample cfgC5 layersC5 hsC5 none none).getLast?).map spatialSize
        = (hsC5.head?).map fun t => (2 * t.height, 2 * t.width)) :=
  ⟨by norm_num [layersC5, hsC5],
   claim_C5_fusion_stage_output zeroResample cfgC5 layersC5 hsC5 none none
     (by norm_num [layersC5, hsC5])
     (by intro t ht; simp only [hsC5, constT, List.mem_cons, List.not_mem_nil, or_false] at ht
         rcases ht with h | h <;> subst h <;> norm_num)⟩

/-- Counterexample to C5 as stated: on a valid two-level input whose finest
reassembled level is 4 x 4, the last fused output is 8 x 8, not 4 x 4 — the
last element's resolution is not equal to the finest reassembled level's
resolution. -/
theorem claim_C5_counterexample :
    layersC5.length = hsC5.length ∧
    ((fusionStageForward zeroResample cfgC5 layersC5 hsC5 none none).getLast?).map spatialSize
        = some (8, 8) ∧
    (hsC5.head?).map spatialSize = some (4, 4) ∧
    ((fusionStageForward zeroResample cfgC5 layersC5 hsC5 none none).getLast?).map spatialSize
        ≠ (hsC5.head?).map spatialSize := by
  refine ⟨by norm_num [layersC5, hsC5], ?_, by norm_num [hsC5, constT, spatialSize], ?_⟩ <;>
    norm_num [fusionStageForward, fusionStageGo, fusionLayerForward, preActResidual,
      promptLayerForward, interpolate, conv2d, relu, Tensor.add, cfgC5, layersC5, hsC5, constT,
      zeroConvW, zeroResample, zeroFusionW, zeroPromptW, spatialSize, List.reverse]

/-- C6: for every reassemble layer, when `factor > 1` (an integer) the
resize is the transposed convolution with kernel and stride `factor` and
zero padding, so the output spatial size is exactly the input size times
`factor`; when `factor == 1` the resize is the identity; when
`0 < factor < 1` the resize is a 3-by-3 stride-`int(1/factor)` padding-1
convolution, so the output size is the input size divided by that stride,
up to one; and in all cases the 1-by-1 projection to `channels` output
channels is applied before the resize. -/
theorem claim_C6_reassemble_layer (channels : Nat) (f : ℚ) (w : ReassembleLayerW)
    (t : Tensor) (hH : 1 ≤ t.height) (hW : 1 ≤ t.width) :
    reassembleLayerForward channels f w t
        = reassembleResize channels f w.resizeW (conv2d channels 1 1 0 w.projection t) ∧
    (reassembleLayerForward channels f w t).channels = channels ∧
    (∀ k : Nat, (k : ℚ) = f → 1 < k →
      (reassembleLayerForward channels f w t).height = t.height * k ∧
      (reassembleLayerForward channels f w t).width = t.width * k) ∧
    (f = 1 →
      (reassembleLayerForward channels f w t).height = t.height ∧
      (reassembleLayerForward channels f w t).width = t.width) ∧
    (0 < f → f < 1 →
      (reassembleLayerForward channels f w t).height
          = (t.height - 1) / strideOfFactor f + 1 ∧
      t.height / strideOfFactor f ≤ (reassembleLayerForward channels f w t).height ∧
      (reassembleLayerForward channels f w t).height ≤ t.height / strideOfFactor f + 1 ∧
      (reassembleLayerForward channels f w t).width
          = (t.width - 1) / strideOfFactor f + 1 ∧
      t.width / strideOfFactor f ≤ (reassembleLayerForward channels f w t).width ∧
      (reassembleLayerForward channels f w t).width ≤ t.width / strideOfFactor f + 1) := by
  refine ⟨rfl, ?_, ?_, ?_, ?_⟩
  · unfold reassembleLayerForward reassembleResize
    split_ifs <;> simp [conv2d, convTranspose2d]
  · intro k hk hk1
    have hf1 : 1 < f := by rw [← hk]; exact_mod_cast hk1
    have hnum : f.num.toNat = k := by
      rw [← hk]
      simp [Rat.num_natCast]
    unfold reassembleLayerForward reassembleResize
    rw [if_pos hf1]
    simp only [convTranspose2d, conv2d, hnum]
    obtain ⟨m, hm⟩ := Nat.exists_eq_add_of_le hH
    obtain ⟨n, hn⟩ := Nat.exists_eq_add_of_le hW
    constructor
    · simp [hm]
      ring
    · simp [hn]
      ring
  · intro hf
    unfold reassembleLayerForward reassembleResize
    rw [if_neg (by rw [hf]; exact lt_irrefl 1), if_pos hf]
    simp only [conv2d]
    omega
  · intro hf0 hf1
    have hs1 : 1 ≤ strideOfFactor f := by
      have h1f : (1 : ℚ) ≤ 1 / f := by
        rw [le_div_iff₀ hf0]
        linarith
      have : (1 : ℤ) ≤ ⌊(1 : ℚ) / f⌋ := Int.le_floor.mpr (by exact_mod_cast h1f)
      unfold strideOfFactor
      omega
    unfold reassembleLayerForward reassembleResize
    rw [if_neg (by linarith), if_neg (by linarith)]
    simp only [conv2d]
    have harith : ∀ a : Nat, 1 ≤ a →
        (a + 2 * 1 - 3) / strideOfFactor f + 1 = (a - 1) / strideOfFactor f + 1 ∧
        a / strideOfFactor f ≤ (a + 2 * 1 - 3) / strideOfFactor f + 1 ∧
        (a + 2 * 1 - 3) / strideOfFactor f + 1 ≤ a / strideOfFactor f + 1 := by
      intro a ha
      have he : a + 2 * 1 - 3 = a - 1 := by omega
      refine ⟨by rw [he], ?_, ?_⟩
      · rw [he]
        calc a / strideOfFactor f ≤ (a - 1 + strideOfFactor f) / strideOfFactor f :=
              Nat.div_le_div_right (by omega)
          _ = (a - 1) / strideOfFactor f + 1 := Nat.add_div_right _ (by omega)
      · rw [he]
        have := Nat.div_le_div_right (c := strideOfFactor f) (Nat.sub_le a 1)
        omega
    have hprojH : (t.height + 2 * 0 - 1) / 1 + 1 = t.height := by omega
    have hprojW : (t.width + 2 * 0 - 1) / 1 + 1 = t.width := by omega
    rw [hprojH, hprojW]
    exact ⟨(harith t.height hH).1, (harith t.height hH).2.1, (harith t.height hH).2.2,
      (harith t.width hW).1, (harith t.width hW).2.1, (harith t.width hW).2.2⟩

/-- Witness for C6: a 3 x 3 input upsampled by factor 2 to 6 x 6. -/
theorem claim_C6_reassemble_layer_witness :
    1 ≤ tC6.height ∧ 1 ≤ tC6.width ∧
    ((reassembleLayerForward 8 2 zeroReassembleW tC6).height = tC6.height * 2 ∧
      (reassembleLayerForward 8 2 zeroReassembleW tC6).width = tC6.width * 2) :=
  ⟨by norm_num [tC6, constT], by norm_num [tC6, constT],
   (claim_C6_reassemble_layer 8 2 zeroReassembleW tC6 (by norm_num [tC6, constT])
       (by norm_num [tC6, constT])).2.2.1 2 (by norm_num) (by norm_num)⟩

/-- C9: for a pixel input of shape `[1, 3, 392, 518]` with `patch_size = 14`,
the computed patch grid is `(28, 37)` (floor division of height and width by
the patch size), the head's interpolation target resolution is
`(28 * 14, 37 * 14) = (392, 518)`, and the returned predicted depth has
shape `[1, 392, 518]` after the singleton channel dimension is dropped. -/
theorem claim_C9_scenario_a_shapes :
    patchGrid cfgC9 pixelC9 = (28, 37) ∧
    headTarget cfgC9 28 37 = (392, 518) ∧
    resultDepthShape (forward zeroResample cfgC9 wC9 pixelC9 none none none none none)
      = some (1, 392, 518) := by
  refine ⟨by norm_num [patchGrid, cfgC9, pixelC9, constT],
    by norm_num [headTarget, cfgC9], ?_⟩
  norm_num [forward, neckForward, reassembleStage, reassembleLayerForward, reassembleResize,
    strideOfFactor, tokensToSpatial, fusionStageForward, fusionStageGo, fusionLayerForward,
    preActResidual, promptLayerForward, interpolate, conv2d, convTranspose2d, relu, Tensor.add,
    headForward, headTarget, pyGet, scaleAct, squeezeChannel, assembleResult, predictedOf,
    resultDepthShape, patchGrid, cfgC9, wC9, pixelC9, constT, zeroConvW, zeroResample,
    zeroFusionW, zeroReassembleW, zeroPromptW, spatialSize, Int.toNat_ofNat, List.get?]
